import Mathlib

/-!
Verification development for the EduSphere chunked video delivery and
playback subsystem.

Server side: a shallow embedding of `backend/controllers/videoController.js`
(`resolveVideoResource`, `streamVideo`, `streamVideoSegment`,
`getVideoMetadata`), of the error constructors in `backend/utils/errors.js`,
and of the `protect` middleware in `backend/middleware/auth.js`.
JS numbers that hold byte offsets are modelled as `Int` (they may be
negative after `parseInt`); a missing or non-numeric query value (`NaN`)
is modelled as `none : Option Int`.  A stored file is a `List Nat` of its
bytes; `fs.createReadStream(path, {start, end})` is modelled as the
inclusive slice of that list.

Client side: a shallow embedding of the stream controller in
`src/pages/user/CoursePlayerPage.tsx` (`appendNextChunk`,
`handleSourceBufferUpdateEnd`, `clearSourceBufferForSeek`,
`handleFragmentedSeek`) as a step function over an explicit
`PlayerState`, driven by the events the browser can deliver
(the synchronous prefix of `appendNextChunk`, fetch completion or
failure, the SourceBuffer `updateend` callback, and a user seek).
Seconds (`video.currentTime`, `duration`) are modelled as rationals.
-/

deriving instance DecidableEq for Except

namespace EduSphere

/-! ## Server data model (backend/utils/errors.js, models, file storage) -/

/-- `AppError` from `backend/utils/errors.js`: message, HTTP status, code. -/
structure AppError where
  message : String
  statusCode : Nat
  code : String
deriving Repr, DecidableEq

/-- `errors.notFound(resource)`. -/
def errNotFound (resource : String) : AppError :=
  ⟨resource ++ " not found", 404, "NOT_FOUND"⟩

/-- `errors.courseNotPurchased()`. -/
def errCourseNotPurchased : AppError :=
  ⟨"You have not purchased this course", 403, "COURSE_NOT_PURCHASED"⟩

/-- `protect`: no token in header or query. -/
def errNoToken : AppError :=
  ⟨"Not authorized, no token provided", 401, "UNAUTHORIZED"⟩

/-- `protect`: `jwt.verify` failed. -/
def errInvalidToken : AppError :=
  ⟨"Not authorized, invalid token", 401, "UNAUTHORIZED"⟩

/-- `protect`: token decoded but `User.findById` returned nothing. -/
def errUserNotFound : AppError :=
  ⟨"User not found", 401, "UNAUTHORIZED"⟩

/-- A populate failure (`video.course` missing) surfaces through
`asyncHandler` and the global error handler as a 500. -/
def errServer : AppError :=
  ⟨"Server Error", 500, "SERVER_ERROR"⟩

/-- A stored `Video` document (the fields the streaming core reads).
The `$or` dual-identifier lookup (`_id` / `videoId`) is collapsed to the
single identifier `vid`. -/
structure VideoRec where
  vid : Nat
  title : String
  duration : Nat
  mimeType : Option String
  filename : String
  course : Nat
deriving Repr, DecidableEq

/-- A stored `Course` document (the fields the streaming core reads). -/
structure CourseRec where
  cid : Nat
  creator : Nat
deriving Repr, DecidableEq

/-- The persistence and file-storage collaborators: video and course
collections, purchase records `(user, course)`, and the byte content of
stored files keyed by `(course, filename)`. -/
structure DB where
  videos : List VideoRec
  courses : List CourseRec
  purchases : List (Nat × Nat)
  files : List ((Nat × String) × List Nat)
deriving Repr, DecidableEq

/-- `Video.findOne({$or: [{_id}, {videoId}]})`. -/
def findVideo (db : DB) (key : Nat) : Option VideoRec :=
  db.videos.find? (fun v => v.vid == key)

/-- The populated `video.course`. -/
def findCourse (db : DB) (cid : Nat) : Option CourseRec :=
  db.courses.find? (fun c => c.cid == cid)

/-- `Purchase.findOne({user, course})`. -/
def findPurchase (db : DB) (uid cid : Nat) : Option (Nat × Nat) :=
  db.purchases.find? (fun p => p.1 == uid && p.2 == cid)

/-- `fs.existsSync` / `fs.statSync` / the stored bytes at
`path.join(dataDir, course.courseId, video.filename)`. -/
def findFile (db : DB) (cid : Nat) (filename : String) : Option (List Nat) :=
  (db.files.find? (fun f => f.1.1 == cid && f.1.2 == filename)).map (·.2)

/-- `DEFAULT_CHUNK_SIZE = 5 * 1024 * 1024` in `videoController.js`. -/
def DEFAULT_CHUNK_SIZE : Int := 5 * 1024 * 1024

/-- `DEFAULT_MIME_TYPE = "video/mp4"` in `videoController.js`. -/
def DEFAULT_MIME_TYPE : String := "video/mp4"

/-- `resolveVideoResource(videoIdentifier, user)`
(`videoController.js` lines 44-81): look the video up (404 if missing),
allow the owning course's creator, otherwise require a purchase record
(403 `COURSE_NOT_PURCHASED` if none), then require the backing file
(404 if missing).  Returns the video, its course and the file bytes. -/
def resolveVideoResource (db : DB) (key : Nat) (uid : Nat) :
    Except AppError (VideoRec × CourseRec × List Nat) :=
  match findVideo db key with
  | none => .error (errNotFound "Video")
  | some video =>
    match findCourse db video.course with
    | none => .error errServer
    | some course =>
      if course.creator == uid then
        match findFile db course.cid video.filename with
        | none => .error (errNotFound "Video file")
        | some bytes => .ok (video, course, bytes)
      else
        match findPurchase db uid course.cid with
        | none => .error errCourseNotPurchased
        | some _ =>
          match findFile db course.cid video.filename with
          | none => .error (errNotFound "Video file")
          | some bytes => .ok (video, course, bytes)

/-- The range-window computation of `streamVideoSegment`
(`videoController.js` lines 352-365): clamp `start` to a nonnegative
number (0 when missing), derive `end` (default one chunk, clamped to
`fileSize - 1`), and re-window to the trailing chunk when
`start >= fileSize`. -/
def segmentWindow (startQ endQ : Option Int) (fileSize : Int) : Int × Int :=
  let start := match startQ with
    | some s => if 0 ≤ s then s else 0
    | none => 0
  let stop := match endQ with
    | some e =>
        if e < start then min (start + DEFAULT_CHUNK_SIZE - 1) (fileSize - 1)
        else min e (fileSize - 1)
    | none => min (start + DEFAULT_CHUNK_SIZE - 1) (fileSize - 1)
  if fileSize ≤ start then (max 0 (fileSize - DEFAULT_CHUNK_SIZE), fileSize - 1)
  else (start, stop)

/-- The range-window computation of `streamVideo`'s range branch
(`videoController.js` lines 309-318): identical clamping to
`segmentWindow` but WITHOUT the `start >= fileSize` re-window. -/
def rangeWindow (startQ endQ : Option Int) (fileSize : Int) : Int × Int :=
  let start := match startQ with
    | some s => if 0 ≤ s then s else 0
    | none => 0
  let stop := match endQ with
    | some e =>
        if e < start then min (start + DEFAULT_CHUNK_SIZE - 1) (fileSize - 1)
        else min e (fileSize - 1)
    | none => min (start + DEFAULT_CHUNK_SIZE - 1) (fileSize - 1)
  (start, stop)

/-- The effective start offset both handlers use: the requested start if
it is a nonnegative number, else 0. -/
def effectiveStart (startQ : Option Int) : Int :=
  match startQ with
  | some s => if 0 ≤ s then s else 0
  | none => 0

/-- `fs.createReadStream(filePath, {start, end})`: the inclusive byte
slice `[start, end]` of the stored file. -/
def sliceBytes (file : List Nat) (start stop : Int) : List Nat :=
  (file.drop start.toNat).take (stop - start + 1).toNat

/-- The `Content-Range` header value `bytes start-end/size`. -/
def mkContentRange (start stop size : Int) : String :=
  s!"bytes {start}-{stop}/{size}"

/-- An HTTP response of the streaming endpoints: status, the
`Content-Range` header if set, `Accept-Ranges: bytes`, `Content-Length`,
`Content-Type`, and the body bytes. -/
structure StreamResponse where
  status : Nat
  contentRange : Option String
  acceptRanges : Bool
  contentLength : Int
  contentType : String
  body : List Nat
deriving Repr, DecidableEq

/-- `streamVideoSegment` (`videoController.js` lines 346-379): resolve
the resource (access gate), compute the clamped window from the `start`
and `end` query parameters, and answer 206 with the window's headers and
byte slice. -/
def streamVideoSegmentH (db : DB) (uid : Nat) (key : Nat)
    (startQ endQ : Option Int) : Except AppError StreamResponse :=
  match resolveVideoResource db key uid with
  | .error e => .error e
  | .ok (video, _, bytes) =>
    let fileSize : Int := bytes.length
    let win := segmentWindow startQ endQ fileSize
    .ok {
      status := 206
      contentRange := some (mkContentRange win.1 win.2 fileSize)
      acceptRanges := true
      contentLength := win.2 - win.1 + 1
      contentType := video.mimeType.getD DEFAULT_MIME_TYPE
      body := sliceBytes bytes win.1 win.2 }

/-- `streamVideo` (`videoController.js` lines 300-344): resolve the
resource; with a range header answer 206 using `rangeWindow` (no
re-window), otherwise answer 200 with the whole file and
`Accept-Ranges: bytes`.  The range header `bytes=a-b` is modelled after
parsing, as the pair of its optional numeric endpoints. -/
def streamVideoH (db : DB) (uid : Nat) (key : Nat)
    (range : Option (Option Int × Option Int)) :
    Except AppError StreamResponse :=
  match resolveVideoResource db key uid with
  | .error e => .error e
  | .ok (video, _, bytes) =>
    let fileSize : Int := bytes.length
    match range with
    | some (startQ, endQ) =>
      let win := rangeWindow startQ endQ fileSize
      .ok {
        status := 206
        contentRange := some (mkContentRange win.1 win.2 fileSize)
        acceptRanges := true
        contentLength := win.2 - win.1 + 1
        contentType := video.mimeType.getD DEFAULT_MIME_TYPE
        body := sliceBytes bytes win.1 win.2 }
    | none =>
      .ok {
        status := 200
        contentRange := none
        acceptRanges := true
        contentLength := fileSize
        contentType := video.mimeType.getD DEFAULT_MIME_TYPE
        body := bytes }

/-- The JSON payload of `getVideoMetadata`. -/
structure VideoMetadataResp where
  id : Nat
  title : String
  duration : Nat
  size : Nat
  mimeType : String
  filename : String
deriving Repr, DecidableEq

/-- `getVideoMetadata` (`videoController.js` lines 381-401): resolve the
resource (access gate), then return the metadata record. -/
def getVideoMetadataH (db : DB) (uid : Nat) (key : Nat) :
    Except AppError VideoMetadataResp :=
  match resolveVideoResource db key uid with
  | .error e => .error e
  | .ok (video, _, bytes) =>
    .ok {
      id := video.vid
      title := video.title
      duration := video.duration
      size := bytes.length
      mimeType := video.mimeType.getD DEFAULT_MIME_TYPE
      filename := video.filename }

/-! ## Authentication middleware (backend/middleware/auth.js) -/

/-- The identity collaborators of `protect`: the user collection and the
`jwt.verify` outcome for each token (a valid token decodes to a user
id). -/
structure AuthSt where
  users : List Nat
  tokens : List (String × Nat)
deriving Repr, DecidableEq

/-- `jwt.verify(token, secret)`: `some id` when the token is valid. -/
def decodeToken (a : AuthSt) (tok : String) : Option Nat :=
  (a.tokens.find? (fun p => p.1 == tok)).map (·.2)

/-- `protect` (`auth.js` lines 8-52): take the token from the
`Authorization` header, else from the `token` query parameter; 401 when
absent, invalid, or when the decoded user does not exist. -/
def protect (a : AuthSt) (headerTok queryTok : Option String) :
    Except AppError Nat :=
  match headerTok.orElse (fun _ => queryTok) with
  | none => .error errNoToken
  | some tok =>
    match decodeToken a tok with
    | none => .error errInvalidToken
    | some uid =>
      if a.users.contains uid then .ok uid else .error errUserNotFound

/-- `router.use(protect); router.get("/metadata/:videoId", ...)`. -/
def metadataEndpoint (a : AuthSt) (db : DB)
    (headerTok queryTok : Option String) (key : Nat) :
    Except AppError VideoMetadataResp :=
  match protect a headerTok queryTok with
  | .error e => .error e
  | .ok uid => getVideoMetadataH db uid key

/-- `router.use(protect); router.get("/segments/:videoId", ...)`. -/
def segmentEndpoint (a : AuthSt) (db : DB)
    (headerTok queryTok : Option String) (key : Nat)
    (startQ endQ : Option Int) : Except AppError StreamResponse :=
  match protect a headerTok queryTok with
  | .error e => .error e
  | .ok uid => streamVideoSegmentH db uid key startQ endQ

/-- `router.use(protect); router.get("/stream/:videoId", ...)`. -/
def streamEndpoint (a : AuthSt) (db : DB)
    (headerTok queryTok : Option String) (key : Nat)
    (range : Option (Option Int × Option Int)) :
    Except AppError StreamResponse :=
  match protect a headerTok queryTok with
  | .error e => .error e
  | .ok uid => streamVideoH db uid key range

/-! ## Client stream controller (src/pages/user/CoursePlayerPage.tsx) -/

/-- `STREAM_CHUNK_SIZE = 2 * 1024 * 1024` in `CoursePlayerPage.tsx`. -/
def STREAM_CHUNK_SIZE : Nat := 2 * 1024 * 1024

/-- The ephemeral per-video PlaybackSession of the stream controller:
the refs `chunkPointerRef` (`cursor`), `fileSizeRef` (`size`),
`isFetchingChunkRef` (`fetching`), `isClearingBufferRef` (`clearing`),
`pendingSeekByteRef` (`pending`), `hasStartedPlaybackRef`
(`hasStarted`), plus the SourceBuffer's own `updating` flag, the range
of the fetch currently in flight, the log of issued byte-range requests,
the log of ranges appended to the buffer, the end-of-stream flag and the
error flag (`videoError`). -/
structure PlayerState where
  cursor : Nat
  size : Nat
  fetching : Bool
  clearing : Bool
  updating : Bool
  pending : Option Nat
  hasStarted : Bool
  inflight : Option (Nat × Nat)
  requests : List (Nat × Nat)
  appended : List (Nat × Nat)
  eos : Bool
  err : Bool
deriving Repr, DecidableEq

/-- The session right after `sourceopen` ran
(`chunkPointerRef.current = 0; pendingSeekByteRef.current = null;`),
with the metadata size recorded. -/
def initPS (size : Nat) : PlayerState :=
  { cursor := 0, size := size, fetching := false, clearing := false
    updating := false, pending := none, hasStarted := false
    inflight := none, requests := [], appended := [], eos := false
    err := false }

/-- The synchronous prefix of `appendNextChunk`
(`CoursePlayerPage.tsx` lines 154-176): bail out if a fetch is in flight
or the buffer is updating or the size is unknown; signal end-of-stream
when the cursor has reached the size; otherwise mark fetching and issue
the request for `[cursor, min(cursor + STREAM_CHUNK_SIZE - 1, size - 1)]`. -/
def appendStep (s : PlayerState) : PlayerState :=
  if s.fetching || s.updating then s
  else if s.size == 0 then s
  else if s.size ≤ s.cursor then { s with eos := true }
  else
    let start := s.cursor
    let stop := min (start + STREAM_CHUNK_SIZE - 1) (s.size - 1)
    { s with fetching := true, inflight := some (start, stop)
             requests := s.requests ++ [(start, stop)] }

/-- The in-flight fetch of `appendNextChunk` resolves
(`CoursePlayerPage.tsx` lines 177-196): `appendBuffer` the chunk and
advance the cursor to `end + 1`; if the SourceBuffer is updating,
`appendBuffer` throws and the catch records the error; the `finally`
clears the fetching flag either way. -/
def fetchOkStep (s : PlayerState) : PlayerState :=
  match s.inflight with
  | none => s
  | some (start, stop) =>
    if s.updating then
      { s with err := true, fetching := false, inflight := none }
    else
      { s with updating := true, appended := s.appended ++ [(start, stop)]
               cursor := stop + 1, hasStarted := true
               fetching := false, inflight := none }

/-- The in-flight fetch of `appendNextChunk` rejects
(`CoursePlayerPage.tsx` lines 190-196): record the error; the `finally`
clears the fetching flag. -/
def fetchErrStep (s : PlayerState) : PlayerState :=
  match s.inflight with
  | none => s
  | some _ => { s with err := true, fetching := false, inflight := none }

/-- `handleSourceBufferUpdateEnd` (`CoursePlayerPage.tsx` lines
199-223), fired when the SourceBuffer finishes an append or a remove:
if a clear was in progress, finish it, commit the pending seek byte as
the new cursor, and call `appendNextChunk`; otherwise signal
end-of-stream when the cursor has reached the size, else call
`appendNextChunk`. -/
def updateEndStep (s : PlayerState) : PlayerState :=
  if !s.updating then s
  else
    let s1 := { s with updating := false }
    if s1.clearing then
      let s2 := { s1 with clearing := false }
      let s3 := match s2.pending with
        | some t => { s2 with cursor := t, pending := none }
        | none => s2
      appendStep s3
    else if s1.size ≤ s1.cursor then { s1 with eos := true }
    else appendStep s1

/-- The seek-to-byte mapping of `handleFragmentedSeek`
(`CoursePlayerPage.tsx` lines 240-244):
`Math.min(size - 1, Math.max(0, Math.floor(size * (t / duration))))`. -/
def seekTarget (size : Nat) (t dur : Rat) : Nat :=
  min (size - 1) (Int.toNat (max 0 ⌊(size : Rat) * (t / dur)⌋))

/-- `handleFragmentedSeek` followed by `clearSourceBufferForSeek`
(`CoursePlayerPage.tsx` lines 225-249): only when the duration and size
are known; store the target as the pending seek byte, drop the
started-playback flag, mark clearing, `abort()` the SourceBuffer and
`remove(0, end)` — which puts the buffer into its updating phase until
`updateend` fires. -/
def seekStep (t dur : Rat) (s : PlayerState) : PlayerState :=
  if dur ≤ 0 || s.size == 0 then s
  else
    { s with pending := some (seekTarget s.size t dur)
             hasStarted := false, clearing := true, updating := true }

/-- The events the browser can deliver to one PlaybackSession. -/
inductive Ev where
  | append
  | fetchOk
  | fetchErr
  | updateEnd
  | seek (t dur : Rat)

/-- Dispatch one event. -/
def step (e : Ev) (s : PlayerState) : PlayerState :=
  match e with
  | .append => appendStep s
  | .fetchOk => fetchOkStep s
  | .fetchErr => fetchErrStep s
  | .updateEnd => updateEndStep s
  | .seek t dur => seekStep t dur s

/-- Run a list of events. -/
def run (s : PlayerState) (evs : List Ev) : PlayerState :=
  evs.foldl (fun s e => step e s) s

/-- One pull-based pipelining round absent seeks: the in-flight fetch
resolves and the resulting `updateend` fires. -/
def roundStep (s : PlayerState) : PlayerState :=
  updateEndStep (fetchOkStep s)

/-- `n` pipelining rounds. -/
def sessionRun (s : PlayerState) : Nat → PlayerState
  | 0 => s
  | n + 1 => sessionRun (roundStep s) n

/-- The inclusive end of the chunk starting at `c` in a file of `size`
bytes: `min (c + STREAM_CHUNK_SIZE - 1) (size - 1)`. -/
def chunkStop (c size : Nat) : Nat :=
  min (c + STREAM_CHUNK_SIZE - 1) (size - 1)

/-- The contiguous chunk ranges from cursor `c` to the end of a file of
`size` bytes. -/
def chunkRanges (c size : Nat) : List (Nat × Nat) :=
  if h : c < size then (c, chunkStop c size) :: chunkRanges (chunkStop c size + 1) size
  else []
termination_by size - c
decreasing_by
  simp only [chunkStop, STREAM_CHUNK_SIZE] at *
  omega

/-- The ceiling count `⌈(size - c) / STREAM_CHUNK_SIZE⌉` of chunks left
from cursor `c`. -/
def chunksLeft (c size : Nat) : Nat :=
  (size - c + STREAM_CHUNK_SIZE - 1) / STREAM_CHUNK_SIZE

/-- The mid-fetch session state: the request for the chunk at cursor `c`
has been issued (it is the last element of `reqs`) and its fetch is in
flight. -/
def fetchingPS (c size : Nat) (reqs apps : List (Nat × Nat)) (hs : Bool) :
    PlayerState :=
  { cursor := c, size := size, fetching := true, clearing := false
    updating := false, pending := none, hasStarted := hs
    inflight := some (c, chunkStop c size), requests := reqs
    appended := apps, eos := false, err := false }

/-- The finished session state: every chunk fetched and appended,
end-of-stream signalled. -/
def finishedPS (size : Nat) (reqs apps : List (Nat × Nat)) : PlayerState :=
  { cursor := size, size := size, fetching := false, clearing := false
    updating := false, pending := none, hasStarted := true
    inflight := none, requests := reqs, appended := apps, eos := true
    err := false }

/-- The session state right after the chunk at cursor `c` was fetched
and appended: the SourceBuffer is processing the append (updating), the
cursor has advanced past the chunk. -/
def appendedPS (c size : Nat) (reqs apps : List (Nat × Nat)) : PlayerState :=
  { cursor := chunkStop c size + 1, size := size, fetching := false
    clearing := false, updating := true, pending := none, hasStarted := true
    inflight := none, requests := reqs
    appended := apps ++ [(c, chunkStop c size)], eos := false, err := false }

/-- The safety invariant of one PlaybackSession: the clearing flag only
holds while the SourceBuffer is updating, and never together with the
fetching flag. -/
def MutexInv (s : PlayerState) : Prop :=
  (s.clearing = true → s.updating = true) ∧
  ¬(s.fetching = true ∧ s.clearing = true)

/-- An event is seek-safe in state `s` when it is not a seek delivered
while a fetch is in flight. -/
def SeekSafe (e : Ev) (s : PlayerState) : Prop :=
  match e with
  | .seek _ _ => s.fetching = false
  | _ => True

/-! ## Concrete fixtures used by witnesses and counterexamples -/

/-- A course owned by user 1. -/
def exCourse : CourseRec := { cid := 3, creator := 1 }

/-- A 10-byte video in course 3. -/
def exVideo : VideoRec :=
  { vid := 7, title := "intro", duration := 60, mimeType := none
    filename := "intro.mp4", course := 3 }

/-- The 10 stored bytes of `exVideo`. -/
def exBytes : List Nat := [100, 101, 102, 103, 104, 105, 106, 107, 108, 109]

/-- A store with one course, one video, its file, and a purchase by
user 2. -/
def exDB : DB :=
  { videos := [exVideo], courses := [exCourse], purchases := [(2, 3)]
    files := [((3, "intro.mp4"), exBytes)] }

/-- Tokens: `"tcreator"` is user 1, `"tbuyer"` is user 2, `"tother"` is
user 5; users 1, 2 and 5 exist. -/
def exAuth : AuthSt :=
  { users := [1, 2, 5]
    tokens := [("tcreator", 1), ("tbuyer", 2), ("tother", 5)] }

/-! ## Window computation lemmas -/

theorem segmentWindow_bounds (startQ endQ : Option Int) (fileSize : Int)
    (hfs : 1 ≤ fileSize) :
    0 ≤ (segmentWindow startQ endQ fileSize).1 ∧
    (segmentWindow startQ endQ fileSize).1 ≤ (segmentWindow startQ endQ fileSize).2 ∧
    (segmentWindow startQ endQ fileSize).2 < fileSize := by
  unfold segmentWindow DEFAULT_CHUNK_SIZE
  rcases startQ with _ | s <;> rcases endQ with _ | e <;>
    simp only <;> split_ifs <;> simp_all <;> omega

theorem segmentWindow_in_range (start stop : Nat) (fileSize : Int)
    (hse : start ≤ stop) (hlt : (stop : Int) < fileSize) :
    segmentWindow (some (start : Int)) (some (stop : Int)) fileSize =
      ((start : Int), (stop : Int)) := by
  unfold segmentWindow
  have h0 : (0 : Int) ≤ (start : Int) := Int.natCast_nonneg start
  have hss : ¬((stop : Int) < (start : Int)) := by exact_mod_cast not_lt.mpr hse
  simp only [h0, if_true, hss, if_false]
  have h1 : min (stop : Int) (fileSize - 1) = (stop : Int) := by omega
  have h2 : ¬(fileSize ≤ (start : Int)) := by omega
  simp [h1, h2]

theorem segmentWindow_overrun (startQ : Int) (endQ : Option Int) (fileSize : Int)
    (hfs : 1 ≤ fileSize) (hover : fileSize ≤ startQ) :
    segmentWindow (some startQ) endQ fileSize =
      (max 0 (fileSize - DEFAULT_CHUNK_SIZE), fileSize - 1) := by
  unfold segmentWindow
  have h0 : (0 : Int) ≤ startQ := by omega
  rcases endQ with _ | e <;> simp only [h0, if_true] <;> split_ifs <;>
    first | omega | rfl

theorem rangeWindow_eq_segmentWindow (startQ endQ : Option Int) (fileSize : Int)
    (h : effectiveStart startQ < fileSize) :
    rangeWindow startQ endQ fileSize = segmentWindow startQ endQ fileSize := by
  unfold rangeWindow segmentWindow effectiveStart at *
  rcases startQ with _ | s <;> rcases endQ with _ | e <;> simp only at h ⊢ <;>
    split_ifs <;> first | rfl | omega

/-! ## Byte-slice lemmas -/

theorem sliceBytes_length (file : List Nat) (start stop : Nat)
    (hse : start ≤ stop) (hlt : stop < file.length) :
    (sliceBytes file (start : Int) (stop : Int)).length = stop - start + 1 := by
  unfold sliceBytes
  have h1 : ((stop : Int) - (start : Int) + 1).toNat = stop - start + 1 := by omega
  have h2 : ((start : Int)).toNat = start := Int.toNat_natCast start
  rw [h1, h2, List.length_take, List.length_drop]
  omega

theorem sliceBytes_get (file : List Nat) (start stop i : Nat)
    (hse : start ≤ stop) (hi : i < stop - start + 1) :
    (sliceBytes file (start : Int) (stop : Int))[i]? = file[start + i]? := by
  unfold sliceBytes
  have h1 : ((stop : Int) - (start : Int) + 1).toNat = stop - start + 1 := by
    omega
  have h2 : ((start : Int)).toNat = start := Int.toNat_natCast start
  rw [h1, h2, List.getElem?_take_of_lt hi, List.getElem?_drop]

/-! ## Claim C10: the segment clamping is total -/

/-- C10: for every stored file of size at least 1 and arbitrary `start`
and `end` query values (missing, non-numeric, negative, too large, or
with `end < start`), the window computed by the segment endpoint always
satisfies `0 ≤ start ≤ end ≤ fileSize - 1`, so `Content-Length
= end - start + 1 ≥ 1` and the bounded read `[start, end]` is
well-formed. -/
theorem claim_C10 (startQ endQ : Option Int) (fileSize : Int)
    (hfs : 1 ≤ fileSize) :
    0 ≤ (segmentWindow startQ endQ fileSize).1 ∧
    (segmentWindow startQ endQ fileSize).1 ≤ (segmentWindow startQ endQ fileSize).2 ∧
    (segmentWindow startQ endQ fileSize).2 ≤ fileSize - 1 ∧
    1 ≤ (segmentWindow startQ endQ fileSize).2 - (segmentWindow startQ endQ fileSize).1 + 1 := by
  obtain ⟨h0, h1, h2⟩ := segmentWindow_bounds startQ endQ fileSize hfs
  exact ⟨h0, h1, by omega, by omega⟩

/-- Witness for C10 at `start = some (-3)`, `end = some 2`,
`fileSize = 10`. -/
theorem claim_C10_witness :
    (1 : Int) ≤ 10 ∧
    (0 ≤ (segmentWindow (some (-3)) (some 2) 10).1 ∧
     (segmentWindow (some (-3)) (some 2) 10).1 ≤ (segmentWindow (some (-3)) (some 2) 10).2 ∧
     (segmentWindow (some (-3)) (some 2) 10).2 ≤ 10 - 1 ∧
     1 ≤ (segmentWindow (some (-3)) (some 2) 10).2 - (segmentWindow (some (-3)) (some 2) 10).1 + 1) :=
  ⟨by norm_num, claim_C10 (some (-3)) (some 2) 10 (by norm_num)⟩

/-! ## Claim C1: in-range segment requests are answered exactly -/

/-- C1: for every stored video asset of size at least 1 and every
segment request with `0 ≤ start ≤ end < size` by an authorized
requester (one for whom `resolveVideoResource` succeeds), the segment
endpoint answers 206 with `Content-Range: bytes start-end/size`,
`Content-Length = end - start + 1`, and a body that is exactly the byte
slice `[start, end]` of the stored file. -/
theorem claim_C1 (db : DB) (uid key : Nat) (v : VideoRec) (c : CourseRec)
    (bytes : List Nat) (start stop : Nat)
    (hres : resolveVideoResource db key uid = .ok (v, c, bytes))
    (hse : start ≤ stop) (hlt : stop < bytes.length) :
    streamVideoSegmentH db uid key (some (start : Int)) (some (stop : Int)) =
      .ok { status := 206
            contentRange := some (mkContentRange start stop bytes.length)
            acceptRanges := true
            contentLength := (stop : Int) - start + 1
            contentType := v.mimeType.getD DEFAULT_MIME_TYPE
            body := sliceBytes bytes start stop } ∧
    (sliceBytes bytes (start : Int) (stop : Int)).length = stop - start + 1 ∧
    ∀ i : Nat, i < stop - start + 1 →
      (sliceBytes bytes (start : Int) (stop : Int))[i]? = bytes[start + i]? := by
  have hwin : segmentWindow (some (start : Int)) (some (stop : Int)) bytes.length =
      ((start : Int), (stop : Int)) :=
    segmentWindow_in_range start stop bytes.length hse (by exact_mod_cast hlt)
  refine ⟨?_, sliceBytes_length bytes start stop hse hlt,
    fun i hi => sliceBytes_get bytes start stop i hse hi⟩
  simp only [streamVideoSegmentH, hres, hwin]

/-- Witness for C1: the concrete store `exDB`, creator requester,
`start = 2`, `end = 5` over the 10-byte file. -/
theorem claim_C1_witness :
    resolveVideoResource exDB 7 1 = .ok (exVideo, exCourse, exBytes) ∧
    2 ≤ 5 ∧ 5 < exBytes.length ∧
    (streamVideoSegmentH exDB 1 7 (some (2 : Int)) (some (5 : Int)) =
      .ok { status := 206
            contentRange := some (mkContentRange 2 5 exBytes.length)
            acceptRanges := true
            contentLength := (5 : Int) - 2 + 1
            contentType := exVideo.mimeType.getD DEFAULT_MIME_TYPE
            body := sliceBytes exBytes 2 5 } ∧
     (sliceBytes exBytes ((2 : Nat) : Int) ((5 : Nat) : Int)).length = 5 - 2 + 1 ∧
     ∀ i : Nat, i < 5 - 2 + 1 →
       (sliceBytes exBytes ((2 : Nat) : Int) ((5 : Nat) : Int))[i]? = exBytes[2 + i]?) :=
  ⟨by decide, by decide, by decide,
    claim_C1 exDB 1 7 exVideo exCourse exBytes 2 5 (by decide) (by decide) (by decide)⟩

/-! ## Claim C2: out-of-range start is re-windowed, not an error -/

/-- C2: for every stored video asset of size at least 1 and every
segment request whose `start` is at least the size, by an authorized
requester, the segment endpoint does not error: it re-windows to the
trailing chunk `[max 0 (size - DEFAULT_CHUNK_SIZE), size - 1]` and
answers 206 for that window, whatever the `end` parameter was. -/
theorem claim_C2 (db : DB) (uid key : Nat) (v : VideoRec) (c : CourseRec)
    (bytes : List Nat) (startQ : Int) (endQ : Option Int)
    (hres : resolveVideoResource db key uid = .ok (v, c, bytes))
    (hsz : 1 ≤ bytes.length)
    (hover : (bytes.length : Int) ≤ startQ) :
    streamVideoSegmentH db uid key (some startQ) endQ =
      .ok { status := 206
            contentRange := some (mkContentRange
              (max 0 ((bytes.length : Int) - DEFAULT_CHUNK_SIZE))
              ((bytes.length : Int) - 1) bytes.length)
            acceptRanges := true
            contentLength := ((bytes.length : Int) - 1) -
              max 0 ((bytes.length : Int) - DEFAULT_CHUNK_SIZE) + 1
            contentType := v.mimeType.getD DEFAULT_MIME_TYPE
            body := sliceBytes bytes
              (max 0 ((bytes.length : Int) - DEFAULT_CHUNK_SIZE))
              ((bytes.length : Int) - 1) } := by
  have hwin := segmentWindow_overrun startQ endQ (bytes.length : Int)
    (by exact_mod_cast hsz) hover
  simp only [streamVideoSegmentH, hres, hwin]

/-- Witness for C2: requested `start = 20` on the 10-byte file. -/
theorem claim_C2_witness :
    resolveVideoResource exDB 7 1 = .ok (exVideo, exCourse, exBytes) ∧
    1 ≤ exBytes.length ∧ ((exBytes.length : Int) ≤ 20) ∧
    streamVideoSegmentH exDB 1 7 (some 20) none =
      .ok { status := 206
            contentRange := some (mkContentRange
              (max 0 ((exBytes.length : Int) - DEFAULT_CHUNK_SIZE))
              ((exBytes.length : Int) - 1) exBytes.length)
            acceptRanges := true
            contentLength := ((exBytes.length : Int) - 1) -
              max 0 ((exBytes.length : Int) - DEFAULT_CHUNK_SIZE) + 1
            contentType := exVideo.mimeType.getD DEFAULT_MIME_TYPE
            body := sliceBytes exBytes
              (max 0 ((exBytes.length : Int) - DEFAULT_CHUNK_SIZE))
              ((exBytes.length : Int) - 1) } :=
  ⟨by decide, by decide, by decide,
    claim_C2 exDB 1 7 exVideo exCourse exBytes 20 none (by decide) (by decide)
      (by decide)⟩

/-! ## Resolution and authentication lemmas -/

theorem resolve_ok_of_access (db : DB) (uid key : Nat) (v : VideoRec)
    (c : CourseRec) (bytes : List Nat)
    (hv : findVideo db key = some v)
    (hc : findCourse db v.course = some c)
    (hacc : c.creator = uid ∨ findPurchase db uid c.cid ≠ none)
    (hf : findFile db c.cid v.filename = some bytes) :
    resolveVideoResource db key uid = .ok (v, c, bytes) := by
  simp only [resolveVideoResource, hv, hc]
  rcases hacc with hcr | hp
  · simp [hcr, hf]
  · rcases hne : findPurchase db uid c.cid with _ | p
    · exact absurd hne hp
    · by_cases hcr : c.creator == uid <;> simp [hcr, hne, hf]

theorem resolve_403_of_no_access (db : DB) (uid key : Nat) (v : VideoRec)
    (c : CourseRec)
    (hv : findVideo db key = some v)
    (hc : findCourse db v.course = some c)
    (hne : c.creator ≠ uid)
    (hp : findPurchase db uid c.cid = none) :
    resolveVideoResource db key uid = .error errCourseNotPurchased := by
  simp only [resolveVideoResource, hv, hc]
  have : (c.creator == uid) = false := by simp [hne]
  simp [this, hp]

theorem resolve_404_of_no_video (db : DB) (uid key : Nat)
    (hv : findVideo db key = none) :
    resolveVideoResource db key uid = .error (errNotFound "Video") := by
  simp only [resolveVideoResource, hv]

theorem protect_no_token (a : AuthSt) :
    protect a none none = .error errNoToken := rfl

theorem protect_invalid_token (a : AuthSt) (tok : String)
    (qt : Option String) (h : decodeToken a tok = none) :
    protect a (some tok) qt = .error errInvalidToken := by
  unfold protect
  simp [Option.orElse, h]

theorem protect_user_not_found (a : AuthSt) (tok : String)
    (qt : Option String) (uid : Nat) (h : decodeToken a tok = some uid)
    (hu : a.users.contains uid = false) :
    protect a (some tok) qt = .error errUserNotFound := by
  unfold protect
  have hmem : uid ∉ a.users := by simpa using hu
  simp [Option.orElse, h, hmem]

theorem protect_ok (a : AuthSt) (tok : String) (qt : Option String)
    (uid : Nat) (h : decodeToken a tok = some uid)
    (hu : a.users.contains uid = true) :
    protect a (some tok) qt = .ok uid := by
  unfold protect
  have hmem : uid ∈ a.users := by simpa using hu
  simp [Option.orElse, h, hmem]

/-! ## Claim C3: full-stream vs. segment range computation -/

/-- Counterexample to C3 as stated: on the 10-byte file of `exDB`, a
range request with `start = 20` (past the end) is re-windowed by the
segment endpoint to `bytes 0-9/10` but NOT by the full-stream endpoint,
which keeps `start = 20` and answers `bytes 20-9/10` with
`Content-Length = -10`: the two responses differ. -/
theorem claim_C3_counterexample :
    streamVideoH exDB 1 7 (some (some 20, none)) ≠
      streamVideoSegmentH exDB 1 7 (some 20) none := by
  decide

/-- C3 as amended: the two range computations agree whenever the
effective start (the requested start clamped to a nonnegative number, 0
when missing) is below the file size — the clamping rules are shared —
but the `start ≥ size` re-window exists only in the segment endpoint.
Error paths agree, and with no range header the full-stream endpoint
answers 200 with the full length and `Accept-Ranges: bytes`. -/
theorem claim_C3 (db : DB) (uid key : Nat) (startQ endQ : Option Int) :
    (∀ v c bytes, resolveVideoResource db key uid = .ok (v, c, bytes) →
      effectiveStart startQ < (bytes.length : Int) →
      streamVideoH db uid key (some (startQ, endQ)) =
        streamVideoSegmentH db uid key startQ endQ) ∧
    (∀ e, resolveVideoResource db key uid = .error e →
      streamVideoH db uid key (some (startQ, endQ)) =
        streamVideoSegmentH db uid key startQ endQ) ∧
    (∀ v c bytes, resolveVideoResource db key uid = .ok (v, c, bytes) →
      streamVideoH db uid key none =
        .ok { status := 200
              contentRange := none
              acceptRanges := true
              contentLength := (bytes.length : Int)
              contentType := v.mimeType.getD DEFAULT_MIME_TYPE
              body := bytes }) := by
  refine ⟨fun v c bytes hres heff => ?_, fun e herr => ?_, fun v c bytes hres => ?_⟩
  · have hw := rangeWindow_eq_segmentWindow startQ endQ (bytes.length : Int) heff
    simp only [streamVideoH, streamVideoSegmentH, hres, hw]
  · simp only [streamVideoH, streamVideoSegmentH, herr]
  · simp only [streamVideoH, hres]

/-- Witness for C3 as amended: `exDB`, creator requester, in-range
start 2. -/
theorem claim_C3_witness :
    resolveVideoResource exDB 7 1 = .ok (exVideo, exCourse, exBytes) ∧
    effectiveStart (some 2) < (exBytes.length : Int) ∧
    (streamVideoH exDB 1 7 (some (some 2, some 5)) =
      streamVideoSegmentH exDB 1 7 (some 2) (some 5)) ∧
    (streamVideoH exDB 1 7 none =
      .ok { status := 200
            contentRange := none
            acceptRanges := true
            contentLength := (exBytes.length : Int)
            contentType := exVideo.mimeType.getD DEFAULT_MIME_TYPE
            body := exBytes }) :=
  ⟨by decide, by decide,
    (claim_C3 exDB 1 7 (some 2) (some 5)).1 exVideo exCourse exBytes
      (by decide) (by decide),
    (claim_C3 exDB 1 7 (some 2) (some 5)).2.2 exVideo exCourse exBytes
      (by decide)⟩

/-! ## Claim C4: the authorization matrix of the three endpoints -/

/-- C4: for every requester and existing video asset (record, course and
backing file present), each of the metadata, segment and full-stream
endpoints: answers 401 when no token is supplied, when the token is
invalid, or when the decoded user does not exist; succeeds for the
owning course's creator; succeeds for a holder of a purchase record for
the owning course; and answers 403 `COURSE_NOT_PURCHASED` for a valid
user who is neither. -/
theorem claim_C4 (a : AuthSt) (db : DB) (key : Nat) (v : VideoRec)
    (c : CourseRec) (bytes : List Nat) (tok : String) (uid : Nat)
    (startQ endQ : Option Int) (range : Option (Option Int × Option Int))
    (hv : findVideo db key = some v)
    (hc : findCourse db v.course = some c)
    (hf : findFile db c.cid v.filename = some bytes) :
    (metadataEndpoint a db none none key = .error errNoToken ∧
     segmentEndpoint a db none none key startQ endQ = .error errNoToken ∧
     streamEndpoint a db none none key range = .error errNoToken) ∧
    (decodeToken a tok = none →
      metadataEndpoint a db (some tok) none key = .error errInvalidToken ∧
      segmentEndpoint a db (some tok) none key startQ endQ = .error errInvalidToken ∧
      streamEndpoint a db (some tok) none key range = .error errInvalidToken) ∧
    (decodeToken a tok = some uid → a.users.contains uid = false →
      metadataEndpoint a db (some tok) none key = .error errUserNotFound ∧
      segmentEndpoint a db (some tok) none key startQ endQ = .error errUserNotFound ∧
      streamEndpoint a db (some tok) none key range = .error errUserNotFound) ∧
    (decodeToken a tok = some uid → a.users.contains uid = true →
      c.creator = uid →
      (∃ r, metadataEndpoint a db (some tok) none key = .ok r) ∧
      (∃ r, segmentEndpoint a db (some tok) none key startQ endQ = .ok r) ∧
      (∃ r, streamEndpoint a db (some tok) none key range = .ok r)) ∧
    (decodeToken a tok = some uid → a.users.contains uid = true →
      findPurchase db uid c.cid ≠ none →
      (∃ r, metadataEndpoint a db (some tok) none key = .ok r) ∧
      (∃ r, segmentEndpoint a db (some tok) none key startQ endQ = .ok r) ∧
      (∃ r, streamEndpoint a db (some tok) none key range = .ok r)) ∧
    (decodeToken a tok = some uid → a.users.contains uid = true →
      c.creator ≠ uid → findPurchase db uid c.cid = none →
      metadataEndpoint a db (some tok) none key = .error errCourseNotPurchased ∧
      segmentEndpoint a db (some tok) none key startQ endQ = .error errCourseNotPurchased ∧
      streamEndpoint a db (some tok) none key range = .error errCourseNotPurchased) := by
  refine ⟨?_, fun hd => ?_, fun hd hu => ?_, fun hd hu hcr => ?_,
    fun hd hu hp => ?_, fun hd hu hcr hp => ?_⟩
  · simp [metadataEndpoint, segmentEndpoint, streamEndpoint, protect_no_token]
  · simp [metadataEndpoint, segmentEndpoint, streamEndpoint,
      protect_invalid_token a tok none hd]
  · simp [metadataEndpoint, segmentEndpoint, streamEndpoint,
      protect_user_not_found a tok none uid hd hu]
  · have hres := resolve_ok_of_access db uid key v c bytes hv hc (.inl hcr) hf
    simp [metadataEndpoint, segmentEndpoint, streamEndpoint,
      protect_ok a tok none uid hd hu, getVideoMetadataH,
      streamVideoSegmentH, streamVideoH, hres]
    cases range with
    | none => simp
    | some rg => simp
  · have hres := resolve_ok_of_access db uid key v c bytes hv hc (.inr hp) hf
    simp [metadataEndpoint, segmentEndpoint, streamEndpoint,
      protect_ok a tok none uid hd hu, getVideoMetadataH,
      streamVideoSegmentH, streamVideoH, hres]
    cases range with
    | none => simp
    | some rg => simp
  · have hres := resolve_403_of_no_access db uid key v c hv hc hcr hp
    simp [metadataEndpoint, segmentEndpoint, streamEndpoint,
      protect_ok a tok none uid hd hu, getVideoMetadataH,
      streamVideoSegmentH, streamVideoH, hres]

/-- Witness for C4 on the concrete store: video 7 of course 3, creator
token `"tcreator"` (user 1), buyer token `"tbuyer"` (user 2), outsider
token `"tother"` (user 5). -/
theorem claim_C4_witness :
    findVideo exDB 7 = some exVideo ∧
    findCourse exDB exVideo.course = some exCourse ∧
    findFile exDB exCourse.cid exVideo.filename = some exBytes ∧
    metadataEndpoint exAuth exDB none none 7 = .error errNoToken ∧
    (∃ r, metadataEndpoint exAuth exDB (some "tcreator") none 7 = .ok r) ∧
    (∃ r, segmentEndpoint exAuth exDB (some "tbuyer") none 7 (some 0) (some 3) = .ok r) ∧
    streamEndpoint exAuth exDB (some "tother") none 7 none = .error errCourseNotPurchased := by
  refine ⟨by decide, by decide, by decide, ?_, ?_, ?_, ?_⟩
  · exact (claim_C4 exAuth exDB 7 exVideo exCourse exBytes "tcreator" 1
      (some 0) (some 3) none (by decide) (by decide) (by decide)).1.1
  · exact ((claim_C4 exAuth exDB 7 exVideo exCourse exBytes "tcreator" 1
      (some 0) (some 3) none (by decide) (by decide) (by decide)).2.2.2.1
      (by decide) (by decide) (by decide)).1
  · exact ((claim_C4 exAuth exDB 7 exVideo exCourse exBytes "tbuyer" 2
      (some 0) (some 3) none (by decide) (by decide) (by decide)).2.2.2.2.1
      (by decide) (by decide) (by decide)).2.1
  · exact ((claim_C4 exAuth exDB 7 exVideo exCourse exBytes "tother" 5
      (some 0) (some 3) none (by decide) (by decide) (by decide)).2.2.2.2.2
      (by decide) (by decide) (by decide) (by decide)).2.2

/-! ## Claim C9: metadata — gate first, then 404, then the record -/

/-- C9: for every metadata request on an existing video record, the
creator-or-purchaser gate is decided before anything else: a requester
without access receives 403 `COURSE_NOT_PURCHASED` whether or not the
backing file exists (never a different error in its place); a missing
video record yields 404; and an authorized requester with the file
present receives exactly
`{id, title, duration, size, mimeType, filename}`. -/
theorem claim_C9 (db : DB) (uid key : Nat) :
    (∀ v c, findVideo db key = some v → findCourse db v.course = some c →
      c.creator ≠ uid → findPurchase db uid c.cid = none →
      getVideoMetadataH db uid key = .error errCourseNotPurchased) ∧
    (findVideo db key = none →
      getVideoMetadataH db uid key = .error (errNotFound "Video")) ∧
    (∀ v c bytes, findVideo db key = some v → findCourse db v.course = some c →
      (c.creator = uid ∨ findPurchase db uid c.cid ≠ none) →
      findFile db c.cid v.filename = some bytes →
      getVideoMetadataH db uid key =
        .ok { id := v.vid, title := v.title, duration := v.duration
              size := bytes.length
              mimeType := v.mimeType.getD DEFAULT_MIME_TYPE
              filename := v.filename }) := by
  refine ⟨fun v c hv hc hcr hp => ?_, fun hv => ?_, fun v c bytes hv hc hacc hf => ?_⟩
  · simp [getVideoMetadataH, resolve_403_of_no_access db uid key v c hv hc hcr hp]
  · simp [getVideoMetadataH, resolve_404_of_no_video db uid key hv]
  · simp [getVideoMetadataH, resolve_ok_of_access db uid key v c bytes hv hc hacc hf]

/-- Witness for C9: on `exDB` with the backing file REMOVED, the
outsider (user 5) still receives the 403 access denial, not a 404; and
on the full `exDB` the buyer receives the metadata record. -/
theorem claim_C9_witness :
    (getVideoMetadataH { exDB with files := [] } 5 7 = .error errCourseNotPurchased) ∧
    (getVideoMetadataH exDB 2 7 =
      .ok { id := exVideo.vid, title := exVideo.title
            duration := exVideo.duration, size := exBytes.length
            mimeType := exVideo.mimeType.getD DEFAULT_MIME_TYPE
            filename := exVideo.filename }) :=
  ⟨(claim_C9 { exDB with files := [] } 5 7).1 exVideo exCourse (by decide)
      (by decide) (by decide) (by decide),
   (claim_C9 exDB 2 7).2.2 exVideo exCourse exBytes (by decide) (by decide)
      (.inr (by decide)) (by decide)⟩

/-! ## Stream controller step lemmas -/

theorem appendStep_pending (s : PlayerState) :
    (appendStep s).pending = s.pending := by
  unfold appendStep
  split_ifs <;> rfl

theorem appendStep_cursor (s : PlayerState) :
    (appendStep s).cursor = s.cursor := by
  unfold appendStep
  split_ifs <;> rfl

theorem appendStep_clearing (s : PlayerState) :
    (appendStep s).clearing = s.clearing := by
  unfold appendStep
  split_ifs <;> rfl

theorem appendStep_mutex (s : PlayerState) (h : MutexInv s) :
    MutexInv (appendStep s) := by
  unfold MutexInv appendStep at *
  split_ifs with h1 h2 h3
  · exact h
  · exact h
  · exact ⟨h.1, fun hb => h.2 ⟨hb.1, hb.2⟩⟩
  · simp only [Bool.or_eq_true] at h1
    push_neg at h1
    constructor
    · intro hcl
      exact absurd (h.1 hcl) (by simp [h1.2])
    · rintro ⟨-, hcl⟩
      exact absurd (h.1 hcl) (by simp [h1.2])

/-! ## Claim C8: at most one chunk fetch in flight -/

/-- C8: a call to `appendNextChunk` made while a fetch is already
outstanding (the fetching flag is set) is a no-op: it issues no network
request and changes no session state. -/
theorem claim_C8 (s : PlayerState) (h : s.fetching = true) :
    appendStep s = s := by
  unfold appendStep
  simp [h]

/-- Witness for C8: the state fetching chunk `(0, 9)` of a 10-byte
session is left untouched by a second call. -/
theorem claim_C8_witness :
    (fetchingPS 0 10 [(0, 9)] [] false).fetching = true ∧
    appendStep (fetchingPS 0 10 [(0, 9)] [] false) = fetchingPS 0 10 [(0, 9)] [] false :=
  ⟨by decide, claim_C8 (fetchingPS 0 10 [(0, 9)] [] false) (by decide)⟩

/-! ## Claim C5: mutual exclusion of fetching and clearing -/

/-- Counterexample to C5 as stated: from a fresh 10-byte session, issue
the first chunk fetch (`appendNextChunk` marks fetching) and then let
the user seek while that fetch is still in flight —
`handleFragmentedSeek` / `clearSourceBufferForSeek` set the clearing
flag without consulting the fetching flag, so both flags are true at
once in a reachable state. -/
theorem claim_C5_counterexample :
    (run (initPS 10) [Ev.append, Ev.seek 1 2]).fetching = true ∧
    (run (initPS 10) [Ev.append, Ev.seek 1 2]).clearing = true := by
  norm_num [run, step, appendStep, seekStep, initPS, STREAM_CHUNK_SIZE]

/-- C5 as amended: (1) at most one of {fetching, clearing} holds in any
state reachable by steps that never deliver a seek while a fetch is in
flight (the original invariant fails exactly on such seeks, which make
both flags true); and (2) unconditionally, the pending-seek-byte is
only consumed — committed as the new chunk cursor — by the buffer-clear
completion branch of the `updateend` handler. -/
theorem claim_C5 :
    (∀ (s : PlayerState) (e : Ev), MutexInv s → SeekSafe e s →
      MutexInv (step e s)) ∧
    (MutexInv (initPS 10)) ∧
    (∀ (s : PlayerState) (e : Ev) (tb : Nat), s.pending = some tb →
      (step e s).pending = none →
      e = Ev.updateEnd ∧ s.clearing = true ∧ (step e s).cursor = tb) := by
  refine ⟨fun s e hinv hsafe => ?_, by constructor <;> simp [initPS, MutexInv],
    fun s e tb hp hp' => ?_⟩
  · cases e with
    | append => exact appendStep_mutex s hinv
    | fetchOk =>
      show MutexInv (fetchOkStep s)
      unfold fetchOkStep
      rcases hfl : s.inflight with _ | ⟨a, b⟩
      · exact hinv
      · split_ifs with hu
        · exact ⟨fun hc => hinv.1 hc, fun h => by simp at h⟩
        · exact ⟨fun _ => rfl, fun h => by simp at h⟩
    | fetchErr =>
      show MutexInv (fetchErrStep s)
      unfold fetchErrStep
      rcases hfl : s.inflight with _ | p
      · exact hinv
      · exact ⟨fun hc => hinv.1 hc, fun h => by simp at h⟩
    | updateEnd =>
      show MutexInv (updateEndStep s)
      unfold updateEndStep
      by_cases hu : s.updating
      · simp only [hu, Bool.not_true, Bool.false_eq_true, if_false]
        by_cases hc : s.clearing
        · simp only [hc, if_true]
          apply appendStep_mutex
          rcases s.pending with _ | t <;> exact ⟨by simp, by simp⟩
        · simp only [hc, if_false, Bool.false_eq_true]
          split_ifs
          · exact ⟨fun h => absurd h (by simp [hc]), fun h => absurd h.2 (by simp [hc])⟩
          · exact appendStep_mutex _ ⟨fun h => absurd h (by simp [hc]),
              fun h => absurd h.2 (by simp [hc])⟩
      · simp only [hu]
        simpa using hinv
    | seek t dur =>
      show MutexInv (seekStep t dur s)
      unfold seekStep
      unfold SeekSafe at hsafe
      split_ifs
      · exact hinv
      · exact ⟨fun _ => rfl, fun h => by rw [hsafe] at h; exact absurd h.1 (by simp)⟩
  · cases e with
    | append =>
      rw [show step Ev.append s = appendStep s from rfl, appendStep_pending, hp] at hp'
      exact absurd hp' (by simp)
    | fetchOk =>
      have : (fetchOkStep s).pending = s.pending := by
        unfold fetchOkStep
        rcases s.inflight with _ | ⟨a, b⟩
        · rfl
        · split_ifs <;> rfl
      rw [show step Ev.fetchOk s = fetchOkStep s from rfl, this, hp] at hp'
      exact absurd hp' (by simp)
    | fetchErr =>
      have : (fetchErrStep s).pending = s.pending := by
        unfold fetchErrStep
        rcases s.inflight with _ | p <;> rfl
      rw [show step Ev.fetchErr s = fetchErrStep s from rfl, this, hp] at hp'
      exact absurd hp' (by simp)
    | seek t dur =>
      have : (seekStep t dur s).pending = none → False := by
        unfold seekStep
        split_ifs
        · rw [hp]; simp
        · simp
      exact absurd hp' this
    | updateEnd =>
      refine ⟨rfl, ?_, ?_⟩
      · by_contra hc
        have hcf : s.clearing = false := by
          cases hcl : s.clearing
          · rfl
          · exact absurd hcl hc
        have : (updateEndStep s).pending = s.pending := by
          unfold updateEndStep
          by_cases hu : s.updating
          · simp only [hu, Bool.not_true, Bool.false_eq_true, if_false, hcf]
            split_ifs
            · rfl
            · rw [appendStep_pending]
          · simp [hu]
        rw [show step Ev.updateEnd s = updateEndStep s from rfl, this, hp] at hp'
        exact absurd hp' (by simp)
      · have hcl : s.clearing = true := by
          by_contra hc
          have hcf : s.clearing = false := by
            cases h2 : s.clearing
            · rfl
            · exact absurd h2 hc
          have : (updateEndStep s).pending = s.pending := by
            unfold updateEndStep
            by_cases hu : s.updating
            · simp only [hu, Bool.not_true, Bool.false_eq_true, if_false, hcf]
              split_ifs
              · rfl
              · rw [appendStep_pending]
            · simp [hu]
          rw [show step Ev.updateEnd s = updateEndStep s from rfl, this, hp] at hp'
          exact absurd hp' (by simp)
        have hu : s.updating = true := by
          by_contra humem
          have huf : s.updating = false := by
            cases h2 : s.updating
            · rfl
            · exact absurd h2 humem
          have : updateEndStep s = s := by
            unfold updateEndStep
            simp [huf]
          rw [show step Ev.updateEnd s = updateEndStep s from rfl, this, hp] at hp'
          exact absurd hp' (by simp)
        show (updateEndStep s).cursor = tb
        unfold updateEndStep
        simp only [hu, Bool.not_true, Bool.false_eq_true, if_false, hcl, if_true, hp]
        rw [appendStep_cursor]

/-- Witness for C5 as amended, applied at the fresh 10-byte session and
an `append` event (trivially seek-safe). -/
theorem claim_C5_witness :
    MutexInv (initPS 10) ∧ SeekSafe Ev.append (initPS 10) ∧
    MutexInv (step Ev.append (initPS 10)) :=
  ⟨claim_C5.2.1, trivial,
    claim_C5.1 (initPS 10) Ev.append claim_C5.2.1 trivial⟩

/-! ## Claim C6: the seek-to-byte pipeline -/

theorem seekTarget_lt (size : Nat) (t dur : Rat) (hsz : 0 < size) :
    seekTarget size t dur < size := by
  unfold seekTarget
  omega

/-- Counterexample to C6 as stated: on a 5,000,000-byte session, seek
to `t = 1` with `duration = 2` while the first chunk fetch (bytes
0-2097151) is still in flight.  The clear completes, the cursor is
committed to the target byte 2,500,000 — but then the stale fetch lands,
`appendNextChunk`'s completion advances the cursor to 2,097,152, and the
next chunk request begins at byte 2,097,152, not at the target: the
requests issued are `(0, 2097151)` then `(2097152, 4194303)`. -/
theorem claim_C6_counterexample :
    seekTarget 5000000 1 2 = 2500000 ∧
    (run (initPS 5000000)
      [Ev.append, Ev.seek 1 2, Ev.updateEnd, Ev.fetchOk, Ev.updateEnd]).requests
      = [(0, 2097151), (2097152, 4194303)] := by
  constructor
  · norm_num [seekTarget]
    rfl
  · norm_num [run, step, appendStep, seekStep, updateEndStep, fetchOkStep,
      initPS, seekTarget, STREAM_CHUNK_SIZE]

/-- C6 as amended: for every seek at time `t` with known `duration > 0`
and `size > 0`, PROVIDED no chunk fetch is in flight at the moment of
the seek, the controller stores
`targetByte = clamp(floor(size * t / duration), 0, size - 1)` as the
pending-seek-byte, marks the buffer clearing, issues no new fetch while
the clear is pending (`appendNextChunk` is a no-op on the cleared
state), and on clear completion commits the cursor to `targetByte` and
issues the next chunk request starting exactly there.  (When a fetch IS
in flight, the stale completion overwrites the committed cursor, as the
counterexample shows.) -/
theorem claim_C6 (s : PlayerState) (t dur : Rat)
    (hdur : 0 < dur) (hsz : 0 < s.size) (hfetch : s.fetching = false) :
    (seekStep t dur s).pending = some (seekTarget s.size t dur) ∧
    (seekStep t dur s).clearing = true ∧
    (seekStep t dur s).requests = s.requests ∧
    ((seekTarget s.size t dur : Int) =
      min (max (⌊(s.size : Rat) * t / dur⌋) 0) ((s.size : Int) - 1)) ∧
    appendStep (seekStep t dur s) = seekStep t dur s ∧
    (updateEndStep (seekStep t dur s)).requests =
      s.requests ++ [(seekTarget s.size t dur,
        min (seekTarget s.size t dur + STREAM_CHUNK_SIZE - 1) (s.size - 1))] ∧
    (updateEndStep (seekStep t dur s)).cursor = seekTarget s.size t dur := by
  have hcond : (decide (dur ≤ 0) || (s.size == 0)) = false := by
    simp [hsz.ne', not_le.mpr hdur]
  have hs1 : seekStep t dur s =
      { s with pending := some (seekTarget s.size t dur)
               hasStarted := false, clearing := true, updating := true } := by
    unfold seekStep
    rw [hcond]
    rfl
  have htb : seekTarget s.size t dur < s.size := seekTarget_lt s.size t dur hsz
  refine ⟨by rw [hs1], by rw [hs1], by rw [hs1], ?_, ?_, ?_, ?_⟩
  · unfold seekTarget
    have hF : (0 : Int) ≤ max 0 ⌊(s.size : Rat) * (t / dur)⌋ := le_max_left _ _
    have hone : 1 ≤ s.size := hsz
    push_cast [Int.toNat_of_nonneg hF, hone]
    rw [mul_div_assoc]
    omega
  · rw [hs1]
    unfold appendStep
    simp
  · rw [hs1]
    unfold updateEndStep
    simp only [Bool.not_true, Bool.false_eq_true, if_false, if_true]
    unfold appendStep
    simp only [hfetch, Bool.or_false, Bool.false_or]
    rw [if_neg (by simp), if_neg (by simp [hsz.ne']), if_neg (by omega)]
  · rw [hs1]
    unfold updateEndStep
    simp only [Bool.not_true, Bool.false_eq_true, if_false, if_true]
    unfold appendStep
    simp only [hfetch, Bool.or_false, Bool.false_or]
    rw [if_neg (by simp), if_neg (by simp [hsz.ne']), if_neg (by omega)]

/-- Witness for C6 as amended: seek to `t = 1`, `duration = 2` on an
idle 10-byte session (append in progress but no fetch in flight). -/
theorem claim_C6_witness :
    (0 : Rat) < 2 ∧ 0 < (initPS 10).size ∧ (initPS 10).fetching = false ∧
    ((seekStep 1 2 (initPS 10)).pending = some (seekTarget 10 1 2) ∧
     (seekStep 1 2 (initPS 10)).clearing = true ∧
     (updateEndStep (seekStep 1 2 (initPS 10))).cursor = seekTarget 10 1 2) := by
  have h := claim_C6 (initPS 10) 1 2 (by norm_num) (by decide) (by decide)
  exact ⟨by norm_num, by decide, by decide, h.1, h.2.1, h.2.2.2.2.2.2⟩

/-! ## Chunk-range lemmas for the no-seek session -/

theorem chunkRanges_unfold (c size : Nat) :
    chunkRanges c size =
      if c < size then
        (c, chunkStop c size) :: chunkRanges (chunkStop c size + 1) size
      else [] := by
  rw [chunkRanges]
  split <;> rfl

theorem chunkRanges_length (c size : Nat) :
    (chunkRanges c size).length = chunksLeft c size := by
  have H : ∀ n c, size - c = n →
      (chunkRanges c size).length = chunksLeft c size := by
    intro n
    induction n using Nat.strong_induction_on with
    | _ n ih =>
      intro c hn
      rw [chunkRanges_unfold]
      by_cases h : c < size
      · rw [if_pos h, List.length_cons]
        rw [ih (size - (chunkStop c size + 1))
          (by simp only [chunkStop, STREAM_CHUNK_SIZE] at *; omega)
          (chunkStop c size + 1) rfl]
        simp only [chunksLeft, chunkStop, STREAM_CHUNK_SIZE] at *
        omega
      · rw [if_neg h, List.length_nil]
        simp only [chunksLeft, STREAM_CHUNK_SIZE]
        omega
  exact H (size - c) c rfl

theorem chunkRanges_head (c size : Nat) (h : c < size) :
    (chunkRanges c size).head? = some (c, chunkStop c size) := by
  rw [chunkRanges_unfold, if_pos h, List.head?_cons]

theorem chunkRanges_chain (c size : Nat) :
    List.Chain' (fun a b => a.2 + 1 = b.1 ∧ a.1 < b.1) (chunkRanges c size) := by
  have H : ∀ n c, size - c = n →
      List.Chain' (fun a b => a.2 + 1 = b.1 ∧ a.1 < b.1) (chunkRanges c size) := by
    intro n
    induction n using Nat.strong_induction_on with
    | _ n ih =>
      intro c hn
      rw [chunkRanges_unfold]
      by_cases h : c < size
      · rw [if_pos h]
        refine List.chain'_cons'.mpr ⟨?_, ih (size - (chunkStop c size + 1))
          (by simp only [chunkStop, STREAM_CHUNK_SIZE] at *; omega)
          (chunkStop c size + 1) rfl⟩
        intro b hb
        by_cases h2 : chunkStop c size + 1 < size
        · rw [chunkRanges_head _ _ h2] at hb
          simp only [Option.mem_def, Option.some_inj] at hb
          subst hb
          refine ⟨rfl, ?_⟩
          simp only [chunkStop, STREAM_CHUNK_SIZE]
          omega
        · rw [chunkRanges_unfold, if_neg h2] at hb
          simp at hb
      · rw [if_neg h]
        exact List.chain'_nil
  exact H (size - c) c rfl

theorem chunkRanges_bounds (c size : Nat) :
    ∀ p ∈ chunkRanges c size, c ≤ p.1 ∧ p.1 ≤ p.2 ∧ p.2 < size := by
  have H : ∀ n c, size - c = n →
      ∀ p ∈ chunkRanges c size, c ≤ p.1 ∧ p.1 ≤ p.2 ∧ p.2 < size := by
    intro n
    induction n using Nat.strong_induction_on with
    | _ n ih =>
      intro c hn p hp
      rw [chunkRanges_unfold] at hp
      by_cases h : c < size
      · rw [if_pos h] at hp
        rcases List.mem_cons.mp hp with hhd | htl
        · subst hhd
          simp only [chunkStop, STREAM_CHUNK_SIZE]
          omega
        · have := ih (size - (chunkStop c size + 1))
            (by simp only [chunkStop, STREAM_CHUNK_SIZE] at *; omega)
            (chunkStop c size + 1) rfl p htl
          simp only [chunkStop, STREAM_CHUNK_SIZE] at *
          omega
      · rw [if_neg h] at hp
        simp at hp
  exact H (size - c) c rfl

/-! ## Pipelining-round lemmas -/

theorem fetchOk_fetchingPS (c size : Nat) (reqs apps : List (Nat × Nat))
    (hs : Bool) :
    fetchOkStep (fetchingPS c size reqs apps hs) = appendedPS c size reqs apps := rfl

theorem roundStep_last (c size : Nat) (reqs apps : List (Nat × Nat)) (hs : Bool)
    (hlt : c < size) (hstop : chunkStop c size = size - 1) :
    roundStep (fetchingPS c size reqs apps hs) =
      finishedPS size reqs (apps ++ [(c, chunkStop c size)]) := by
  unfold roundStep
  rw [fetchOk_fetchingPS]
  unfold updateEndStep appendedPS finishedPS
  rw [if_neg (by simp), if_neg (by simp), if_pos (by simp only []; omega)]
  have hc : chunkStop c size + 1 = size := by omega
  rw [hc]

theorem roundStep_mid (c size : Nat) (reqs apps : List (Nat × Nat)) (hs : Bool)
    (hmid : chunkStop c size + 1 < size) :
    roundStep (fetchingPS c size reqs apps hs) =
      fetchingPS (chunkStop c size + 1) size
        (reqs ++ [(chunkStop c size + 1, chunkStop (chunkStop c size + 1) size)])
        (apps ++ [(c, chunkStop c size)]) true := by
  unfold roundStep
  rw [fetchOk_fetchingPS]
  unfold updateEndStep appendedPS
  rw [if_neg (by simp), if_neg (by simp), if_neg (by simp only []; omega)]
  unfold appendStep
  rw [if_neg (by simp), if_neg (by simp; omega), if_neg (by simp only []; omega)]
  rfl

theorem sessionRun_correct (n : Nat) :
    ∀ (c size : Nat) (reqs apps : List (Nat × Nat)) (hs : Bool),
      c < size → chunksLeft c size = n + 1 →
      sessionRun (fetchingPS c size reqs apps hs) (n + 1) =
        finishedPS size (reqs ++ chunkRanges (chunkStop c size + 1) size)
          (apps ++ chunkRanges c size) := by
  induction n with
  | zero =>
    intro c size reqs apps hs hlt hcnt
    have hstop : chunkStop c size = size - 1 := by
      simp only [chunksLeft, chunkStop, STREAM_CHUNK_SIZE] at *
      omega
    show sessionRun (roundStep (fetchingPS c size reqs apps hs)) 0 = _
    rw [roundStep_last c size reqs apps hs hlt hstop]
    show finishedPS size reqs (apps ++ [(c, chunkStop c size)]) = _
    rw [chunkRanges_unfold (chunkStop c size + 1) size,
      if_neg (by omega),
      chunkRanges_unfold c size, if_pos hlt,
      chunkRanges_unfold (chunkStop c size + 1) size, if_neg (by omega)]
    simp
  | succ m ih =>
    intro c size reqs apps hs hlt hcnt
    have hmid : chunkStop c size + 1 < size := by
      simp only [chunksLeft, chunkStop, STREAM_CHUNK_SIZE] at *
      omega
    show sessionRun (roundStep (fetchingPS c size reqs apps hs)) (m + 1) = _
    rw [roundStep_mid c size reqs apps hs hmid]
    rw [ih (chunkStop c size + 1) size _ _ true hmid
      (by simp only [chunksLeft, chunkStop, STREAM_CHUNK_SIZE] at *; omega)]
    rw [chunkRanges_unfold c size, if_pos hlt,
      chunkRanges_unfold (chunkStop c size + 1) size, if_pos hmid]
    simp

/-! ## Claim C7: chunked fetching is exact, contiguous and complete -/

/-- C7: in ChunkMode, (i) an `appendNextChunk` call on an idle session
with `cursor < size` issues exactly the request
`[cursor, min(cursor + STREAM_CHUNK_SIZE - 1, size - 1)]` and marks the
fetch in flight; (ii) a successful completion advances the cursor to
`end + 1`; (iii) with `cursor` at `size` the call signals end-of-stream
on the buffer instead of fetching; and (iv) absent seeks, a file of
`size` bytes is fetched in exactly `⌈size / STREAM_CHUNK_SIZE⌉`
requests whose ranges are contiguous and strictly increasing and stay
inside the file. -/
theorem claim_C7 (size : Nat) (hsz : 0 < size) :
    (∀ s : PlayerState, s.fetching = false → s.updating = false →
      s.size = size → s.cursor < size →
      appendStep s =
        { s with fetching := true
                 inflight := some (s.cursor, min (s.cursor + STREAM_CHUNK_SIZE - 1) (size - 1))
                 requests := s.requests ++
                   [(s.cursor, min (s.cursor + STREAM_CHUNK_SIZE - 1) (size - 1))] }) ∧
    (∀ (s : PlayerState) (a b : Nat), s.inflight = some (a, b) →
      s.updating = false → (fetchOkStep s).cursor = b + 1) ∧
    (∀ s : PlayerState, s.fetching = false → s.updating = false →
      s.size = size → size ≤ s.cursor → appendStep s = { s with eos := true }) ∧
    (sessionRun (appendStep (initPS size)) (chunksLeft 0 size) =
      finishedPS size (chunkRanges 0 size) (chunkRanges 0 size)) ∧
    ((chunkRanges 0 size).length = (size + STREAM_CHUNK_SIZE - 1) / STREAM_CHUNK_SIZE) ∧
    List.Chain' (fun a b => a.2 + 1 = b.1 ∧ a.1 < b.1) (chunkRanges 0 size) ∧
    (∀ p ∈ chunkRanges 0 size, p.1 ≤ p.2 ∧ p.2 < size) := by
  refine ⟨fun s hf hu hsize hcur => ?_, fun s a b hfl hu => ?_,
    fun s hf hu hsize hcur => ?_, ?_, ?_, chunkRanges_chain 0 size,
    fun p hp => ((chunkRanges_bounds 0 size) p hp).2⟩
  · unfold appendStep
    rw [if_neg (by simp [hf, hu]), if_neg (by simp; omega), if_neg (by omega)]
    simp only [hsize]
  · unfold fetchOkStep
    rw [hfl]
    simp [hu]
  · unfold appendStep
    rw [if_neg (by simp [hf, hu]), if_neg (by simp; omega), if_pos (by omega)]
  · have hinit : appendStep (initPS size) =
        fetchingPS 0 size [(0, chunkStop 0 size)] [] false := by
      unfold appendStep initPS fetchingPS chunkStop
      rw [if_neg (by simp), if_neg (by simp; omega), if_neg (by simp only []; omega)]
      rfl
    have hcnt : chunksLeft 0 size = (chunksLeft 0 size - 1) + 1 := by
      simp only [chunksLeft, STREAM_CHUNK_SIZE] at *
      omega
    rw [hinit, hcnt, sessionRun_correct (chunksLeft 0 size - 1) 0 size _ _ false hsz
      (by omega)]
    rw [chunkRanges_unfold 0 size, if_pos hsz]
    simp
  · rw [chunkRanges_length]
    simp only [chunksLeft, Nat.sub_zero]

/-- Witness for C7 at a 5,000,000-byte file: three chunks. -/
theorem claim_C7_witness :
    0 < 5000000 ∧
    (chunkRanges 0 5000000).length =
      (5000000 + STREAM_CHUNK_SIZE - 1) / STREAM_CHUNK_SIZE :=
  ⟨by norm_num, (claim_C7 5000000 (by norm_num)).2.2.2.2.1⟩

end EduSphere
